import Mathlib

/-!
Verification development for the simple source-finding core of
`6_Deconvolution/6_5_source_finding.ipynb`.

The notebook's core is a noise estimator (`mad_mean`), a 2D Gaussian model
(`gauss2D`), a window fitting routine (`fit_gaussian`, built on
`scipy.optimize.leastsq`) and the iterative extraction loop (`source_finder`).

Embedding conventions:
* Images are 2D arrays of exact rationals (`Img`): a pair of dimensions and a
  total valuation function.  All theorems about pixel contents restrict to
  in-range indices.
* The floating-point transcendental primitives `np.exp`, `np.sqrt`, `np.log`
  and the external iterative solver `scipy.optimize.leastsq` are not code of
  the notebook; they are abstracted as parameters of an `Env` record.  The
  solver receives exactly the data the notebook passes to `leastsq` (the
  initial parameter guess and the flattened mesh and window data) and returns
  a parameter vector, an optional covariance diagonal (`None` when the
  covariance is singular, mirroring `leastsq`), and the integer status flag
  that the notebook ignores.
* The unbounded `while True:` loop is modelled with explicit fuel; running out
  of fuel yields the `diverged` outcome.
* Uncaught Python exceptions are modelled by the `pyError` outcome:
  `covarianceNone` stands for the exception raised by `np.diagonal(None)`
  when `leastsq` returns no covariance, and `emptyArrayMax` for the
  `ValueError` raised by `.max()` on an empty array.  The constructor
  `invalidConfiguration` is the error vocabulary of the specification's
  `InvalidConfiguration` condition; it lets us state (and refute) claims about
  configuration validation.
-/

/-- A 2D image: dimensions plus a total valuation function.  Row-major;
`val i j` is the sample at row `i`, column `j`.  Reads outside the declared
bounds return whatever the underlying function returns; every theorem about
pixel contents restricts to in-range indices. -/
structure Img where
  rows : ℕ
  cols : ℕ
  val : ℕ → ℕ → ℚ

/-- Row-major list of in-range indices of an image, the order in which
`np.where` reports coordinates. -/
def idxList (im : Img) : List (ℕ × ℕ) :=
  (List.range im.rows).flatMap fun i => (List.range im.cols).map fun j => (i, j)

/-- Row-major list of all samples of an image (`ndarray.flatten`). -/
def pixList (im : Img) : List ℚ :=
  (List.range im.rows).flatMap fun i => (List.range im.cols).map fun j => im.val i j

/-- Arithmetic mean of a list of samples (`np.mean`); `0` on the empty list
(where numpy would produce `nan`). -/
def listMean (l : List ℚ) : ℚ := l.sum / l.length

/-- Noise estimator `mad_mean = lambda a: np.mean( abs(a - np.mean(a) ))`:
mean absolute deviation about the arithmetic mean. -/
def mad_mean (a : Img) : ℚ :=
  listMean ((pixList a).map fun x => |x - listMean (pixList a)|)

/-- Largest sample of an image (`ndarray.max()`), `0` for an empty image
(where numpy would raise; the extraction loop only calls it on the padded
residual, which is nonempty in every run considered). -/
def maxPix (im : Img) : ℚ :=
  match pixList im with
  | [] => 0
  | x :: xs => xs.foldl max x

/-- First row-major coordinates attaining the maximum:
`np.where(residual==max_pix)` followed by taking the first element of each
index array. -/
def findMax (im : Img) : ℕ × ℕ :=
  ((idxList im).find? fun p => decide (im.val p.1 p.2 = maxPix im)).getD (0, 0)

/-- Zero padding on every side (`np.pad(..., mode="constant")`). -/
def padImg (im : Img) (p : ℕ) : Img :=
  ⟨im.rows + 2 * p, im.cols + 2 * p, fun i j =>
    if p ≤ i ∧ i < p + im.rows ∧ p ≤ j ∧ j < p + im.cols then
      im.val (i - p) (j - p)
    else 0⟩

/-- Removing the padding again: the slice `[pad:-pad, pad:-pad]`.  Faithful
for `0 < p` (for `p = 0` the Python slice `[0:-0]` would be empty instead). -/
def cropImg (im : Img) (p : ℕ) : Img :=
  ⟨im.rows - 2 * p, im.cols - 2 * p, fun i j => im.val (p + i) (p + j)⟩

/-- Effective start index and length of the Python slice `a:b` on an axis of
length `L` (negative indices count from the end, results are clamped, and an
empty slice results when the effective start is not below the stop). -/
def sliceIdx (L : ℕ) (a b : ℤ) : ℕ × ℕ :=
  let a' : ℤ := if a < 0 then max (L + a) 0 else min a L
  let b' : ℤ := if b < 0 then max (L + b) 0 else min b L
  (a'.toNat, (b' - a').toNat)

/-- The five Gaussian parameters, in the notebook's order. -/
structure Params5 where
  amp : ℚ
  meanX : ℚ
  meanY : ℚ
  sigX : ℚ
  sigY : ℚ
deriving DecidableEq

/-- What the abstract least-squares solver returns, mirroring
`optimize.leastsq(..., full_output=1)`: the fitted parameter vector, the
diagonal of the parameter covariance when one exists (`none` when the
covariance is singular, as when `leastsq` returns `cov_x = None`), and the
integer success flag, which the notebook reads into `sucess` and ignores. -/
structure SolverOut where
  params : Params5
  pcovDiag : Option (List ℚ)
  ier : ℤ
deriving DecidableEq

/-- The abstract numerical environment: the floating-point primitives
`np.exp`, `np.sqrt`, `np.log` and the external `scipy.optimize.leastsq`
solver, which receives the initial guess and the flattened mesh and data
arrays exactly as the notebook passes them. -/
structure Env where
  exp : ℚ → ℚ
  sqrt : ℚ → ℚ
  log : ℚ → ℚ
  solver : Params5 → List ℚ → List ℚ → List ℚ → SolverOut

/-- The 2D Gaussian model, translated from `gauss2D`:
`amp * np.exp( -(x-mean_x)**2/(2*sigma_x**2) - (y-mean_y)**2/(2*sigma_y**2) )`. -/
def gauss2D (E : Env) (x y amp mean_x mean_y sigma_x sigma_y : ℚ) : ℚ :=
  let gx := -(x - mean_x) ^ 2 / (2 * sigma_x ^ 2)
  let gy := -(y - mean_y) ^ 2 / (2 * sigma_y ^ 2)
  amp * E.exp (gx + gy)

/-- One axis of the fitting mesh: `np.linspace(0, n, n)`, i.e. `n` points
from `0` to `n` inclusive, the `i`-th being `n*i/(n-1)` (and `[0]` for
`n = 1`, which the formula also yields since `ℚ` division by zero is zero). -/
def linspace0 (n : ℕ) (i : ℕ) : ℚ := (n : ℚ) * (i : ℚ) / ((n : ℚ) - 1)

/-- `xx.flatten()` for `xx, yy = np.meshgrid(x, y)` with `x` of length `npx`
and `y` of length `npy`: `xx` has shape `(npy, npx)` and `xx[i,j] = x[j]`. -/
def xxFlat (npx npy : ℕ) : List ℚ :=
  (List.range (npx * npy)).map fun k => linspace0 npx (k % npx)

/-- `yy.flatten()`: `yy` has shape `(npy, npx)` and `yy[i,j] = y[i]`. -/
def yyFlat (npx npy : ℕ) : List ℚ :=
  (List.range (npx * npy)).map fun k => linspace0 npy (k / npx)

/-- `data.flatten()` for an array of shape `(rows, cols)`. -/
def dataFlat (im : Img) : List ℚ :=
  (List.range (im.rows * im.cols)).map fun k => im.val (k / im.cols) (k % im.cols)

/-- The residual function `err` handed to `leastsq`:
`gauss2D(xx.flatten(), yy.flatten(), *p) - data.flatten()` (elementwise). -/
def errF (E : Env) (p : Params5) (xxf yyf dataf : List ℚ) : List ℚ :=
  List.zipWith (fun g d => g - d)
    (List.zipWith (fun x y => gauss2D E x y p.amp p.meanX p.meanY p.sigX p.sigY) xxf yyf)
    dataf

/-- Uncaught Python exceptions (and the specification's configuration error
vocabulary).  `covarianceNone` models the exception raised by
`np.diagonal(pcov)` when `leastsq` returns `cov_x = None`; `emptyArrayMax`
models the `ValueError` raised by `.max()` on an empty array;
`invalidConfiguration` is the specification's `InvalidConfiguration`
condition, which lets us state claims about configuration validation. -/
inductive PyErr where
  | covarianceNone
  | emptyArrayMax
  | invalidConfiguration
deriving DecidableEq

/-- What `fit_gaussian` returns on success: the fitted parameters, the
per-parameter errors `abs(np.diagonal(pcov))**0.5`, and the dense model image
`gauss2D(xx, yy, *params)`. -/
structure FitOut where
  params : Params5
  perr : List ℚ
  model : Img

/-- The dense reconstructed model image `gauss2D(xx, yy, *params)`:
`np.meshgrid` gives `xx, yy` of shape `(npy, npx)`, so the model image has
shape `(npy, npx)` with entry `(i, j)` evaluated at `(x[j], y[i])`. -/
def fitModelImg (E : Env) (npx npy : ℕ) (p : Params5) : Img :=
  ⟨npy, npx, fun i j => gauss2D E (linspace0 npx j) (linspace0 npy i) p.amp p.meanX p.meanY p.sigX p.sigY⟩

/-- Translation of `fit_gaussian(data, psf_pix)`.  An empty window raises at
`amp = data.max()` (`emptyArrayMax`).  The initial guess is the window
maximum, the integer half-width `width/2` (Python 2 integer division) for
both centres, and `psf_pix` for both sigmas.  The solver's success flag is
ignored, exactly as in the source; a missing covariance raises at
`np.diagonal(pcov)` (`covarianceNone`). -/
def fit_gaussian (E : Env) (data : Img) (psf_pix : ℚ) : Except PyErr FitOut :=
  if data.rows = 0 ∨ data.cols = 0 then .error .emptyArrayMax
  else
    let width := data.rows
    let mean_x : ℚ := ((width / 2 : ℕ) : ℚ)
    let amp := maxPix data
    let params0 : Params5 := ⟨amp, mean_x, mean_x, psf_pix, psf_pix⟩
    let out := E.solver params0 (xxFlat data.rows data.cols) (yyFlat data.rows data.cols) (dataFlat data)
    match out.pcovDiag with
    | none => .error .covarianceNone
    | some d => .ok ⟨out.params, d.map fun v => E.sqrt |v|, fitModelImg E data.rows data.cols out.params⟩

/-- The run-constant configuration of `source_finder`: both thresholds, the
window width, the PSF sigma guess, the padding margin and the FWHM conversion
constant, all computed before the loop. -/
structure Cfg where
  peakSigma : ℚ
  boundarySigma : ℚ
  width : ℕ
  psf : ℚ
  pad : ℕ
  fwhm : ℚ

/-- How `source_finder` builds its configuration: `peak_sigma =
sigma_noise*peak`, `boundary_sigma = sigma_noise*boundary`, `pad = width*2`,
`FWHM = 2*np.sqrt(2*np.log(2))`. -/
def mkCfg (E : Env) (sigma_noise peak boundary : ℚ) (width : ℕ) (psf_pix : ℚ) : Cfg :=
  ⟨sigma_noise * peak, sigma_noise * boundary, width, psf_pix, width * 2,
    2 * E.sqrt (2 * E.log 2)⟩

/-- A rectangular write region of the padded arrays: effective start indices
and lengths of the two slices making up `subim_slice`. -/
structure Win where
  s1 : ℕ
  len1 : ℕ
  s2 : ℕ
  len2 : ℕ
deriving DecidableEq

/-- Membership of a pixel in a window region. -/
def inWin (w : Win) (i j : ℕ) : Prop :=
  w.s1 ≤ i ∧ i < w.s1 + w.len1 ∧ w.s2 ≤ j ∧ j < w.s2 + w.len2

instance (w : Win) (i j : ℕ) : Decidable (inWin w i j) := by
  unfold inWin; infer_instance

/-- Two window regions are disjoint when they are separated on some axis. -/
def disjWin (a b : Win) : Prop :=
  a.s1 + a.len1 ≤ b.s1 ∨ b.s1 + b.len1 ≤ a.s1 ∨ a.s2 + a.len2 ≤ b.s2 ∨ b.s2 + b.len2 ≤ a.s2

instance (a b : Win) : Decidable (disjWin a b) := by
  unfold disjWin; infer_instance

/-- Overwrite a window of an image with another image
(`model[subim_slice] = _model`). -/
def writeAt (im : Img) (w : Win) (m : Img) : Img :=
  ⟨im.rows, im.cols, fun i j =>
    if inWin w i j then m.val (i - w.s1) (j - w.s2) else im.val i j⟩

/-- Subtract another image on a window (`residual[subim_slice] -= _model`). -/
def subAt (im : Img) (w : Win) (m : Img) : Img :=
  ⟨im.rows, im.cols, fun i j =>
    if inWin w i j then im.val i j - m.val (i - w.s1) (j - w.s2) else im.val i j⟩

/-- The loop state: the running residual and model images, the catalog, and a
ghost list of the window regions selected so far.  The `wins` field is
specification instrumentation only: no computed image or catalog value
depends on it. -/
structure State where
  residual : Img
  model : Img
  catalog : List (ℚ × ℚ × ℚ × ℚ × ℚ)
  wins : List Win

/-- The window region selected in the current iteration:
`subim_slice = [slice(xpix-width/2, xpix+width/2), slice(ypix-width/2, ypix+width/2)]`
with Python slice semantics. -/
def stepWin (C : Cfg) (st : State) : Win :=
  let xy := findMax st.residual
  let r := sliceIdx st.residual.rows ((xy.1 : ℤ) - ((C.width / 2 : ℕ) : ℤ)) ((xy.1 : ℤ) + ((C.width / 2 : ℕ) : ℤ))
  let c := sliceIdx st.residual.cols ((xy.2 : ℤ) - ((C.width / 2 : ℕ) : ℤ)) ((xy.2 : ℤ) + ((C.width / 2 : ℕ) : ℤ))
  ⟨r.1, r.2, c.1, c.2⟩

/-- The masked window handed to the fit:
`subimage = residual[subim_slice]`, then `subimage * (subimage > boundary_sigma)`
(pixels not strictly above the boundary threshold are zeroed). -/
def maskedOf (C : Cfg) (st : State) : Img :=
  let w := stepWin C st
  ⟨w.len1, w.len2, fun i j =>
    let v := st.residual.val (w.s1 + i) (w.s2 + j)
    if C.boundarySigma < v then v else 0⟩

/-- The state after a successful fit: write the model image into `model` on
the window (overwrite), append the source record
`(amp, xpix + (width/2 - mean_x) - pad, ypix + (width/2 - mean_y) - pad,
FWHM*sigma_x, FWHM*sigma_y)` to the catalog, and subtract the model image
from `residual` on the window.  No condition is placed on the fitted
amplitude. -/
def applyFit (C : Cfg) (st : State) (out : FitOut) : State :=
  let xy := findMax st.residual
  let w := stepWin C st
  { residual := subAt st.residual w out.model
    model := writeAt st.model w out.model
    catalog := st.catalog ++ [(out.params.amp,
      (xy.1 : ℚ) + (((C.width / 2 : ℕ) : ℚ) - out.params.meanX) - (C.pad : ℚ),
      (xy.2 : ℚ) + (((C.width / 2 : ℕ) : ℚ) - out.params.meanY) - (C.pad : ℚ),
      C.fwhm * out.params.sigX,
      C.fwhm * out.params.sigY)]
    wins := st.wins ++ [stepWin C st] }

/-- Result of one loop iteration: the `break` (when `max_pix < peak_sigma`),
a completed iteration, or an uncaught exception. -/
inductive StepRes where
  | done (st : State)
  | next (st : State)
  | exn (e : PyErr)

/-- One iteration of the `while True:` loop of `source_finder`. -/
def sfStep (E : Env) (C : Cfg) (st : State) : StepRes :=
  if maxPix st.residual < C.peakSigma then .done st
  else
    match fit_gaussian E (maskedOf C st) C.psf with
    | .error e => .exn e
    | .ok out => .next (applyFit C st out)

/-- Outcome of running the loop (or the whole extractor): a normal return, an
uncaught Python exception, or failure to terminate within the given fuel. -/
inductive Outcome (α : Type) where
  | ok (a : α)
  | pyError (e : PyErr)
  | diverged

/-- The `while True:` loop, with explicit fuel. -/
def sfLoop (E : Env) (C : Cfg) : ℕ → State → Outcome State
  | 0, _ => .diverged
  | fuel + 1, st =>
    match sfStep E C st with
    | .done s => .ok s
    | .exn e => .pyError e
    | .next s => sfLoop E C fuel s

/-- The initial loop state: residual = zero-padded copy of the input, model =
zero array of the same padded shape, empty catalog. -/
def initState (data : Img) (pad : ℕ) : State :=
  ⟨padImg data pad,
    ⟨(padImg data pad).rows, (padImg data pad).cols, fun _ _ => 0⟩, [], []⟩

/-- Translation of `source_finder(data, peak, boundary, width, psf_pix)`:
estimate the noise with `mad_mean` from the original image, derive both
thresholds, pad, run the loop, then crop model and residual back to the
original shape and return them with the catalog and noise estimate. -/
def source_finder (E : Env) (fuel : ℕ) (data : Img) (peak boundary : ℚ) (width : ℕ)
    (psf_pix : ℚ) : Outcome (List (ℚ × ℚ × ℚ × ℚ × ℚ) × Img × Img × ℚ) :=
  match sfLoop E (mkCfg E (mad_mean data) peak boundary width psf_pix) fuel
      (initState data (width * 2)) with
  | .ok st => .ok (st.catalog, cropImg st.model (width * 2), cropImg st.residual (width * 2), mad_mean data)
  | .pyError e => .pyError e
  | .diverged => .diverged

/-! Observers used to state claims about run outcomes without comparing whole
images for equality. -/

/-- Constructor tag of an outcome: `0` for a normal return, `1` for an
uncaught exception, `2` for running out of fuel. -/
def outcomeTag {α : Type} : Outcome α → ℕ
  | .ok _ => 0
  | .pyError _ => 1
  | .diverged => 2

/-- The exception of an outcome, when there is one. -/
def errOf {α : Type} : Outcome α → Option PyErr
  | .pyError e => some e
  | _ => none

/-- The catalog of a normal extractor return (empty otherwise). -/
def catalogOf : Outcome (List (ℚ × ℚ × ℚ × ℚ × ℚ) × Img × Img × ℚ) → List (ℚ × ℚ × ℚ × ℚ × ℚ)
  | .ok r => r.1
  | _ => []

/-- The noise estimate of a normal extractor return (`0` otherwise). -/
def sigmaOf : Outcome (List (ℚ × ℚ × ℚ × ℚ × ℚ) × Img × Img × ℚ) → ℚ
  | .ok r => r.2.2.2
  | _ => 0

/-- The amplitude fields of the returned catalog, in detection order. -/
def catalogAmps (o : Outcome (List (ℚ × ℚ × ℚ × ℚ × ℚ) × Img × Img × ℚ)) : List ℚ :=
  (catalogOf o).map fun r => r.1

/-- Whether an iteration took the `break` branch. -/
def stepIsDone : StepRes → Bool
  | .done _ => true
  | _ => false

/-- The exception raised by an iteration, when there is one. -/
def stepErrOf : StepRes → Option PyErr
  | .exn e => some e
  | _ => none

/-! Concrete instances used by counterexamples and witnesses. -/

/-- A 2x2 image with a single bright pixel. -/
def img1 : Img := ⟨2, 2, fun i j => if i = 0 ∧ j = 0 then 4 else 0⟩

/-- A 2x2 image with two bright pixels of different brightness. -/
def img2 : Img := ⟨2, 2, fun i j => if i = 0 ∧ j = 0 then 4 else if i = 1 ∧ j = 1 then 3 else 0⟩

/-- The all-zero 2x2 image. -/
def zeroImg : Img := ⟨2, 2, fun _ _ => 0⟩

/-- A solver behaviour permitted by the `leastsq` interface: return the
initial guess together with a covariance diagonal. -/
def solverId : Params5 → List ℚ → List ℚ → List ℚ → SolverOut :=
  fun p0 _ _ _ => ⟨p0, some [0, 0, 0, 0, 0], 1⟩

/-- An environment with constant-one primitives and the `solverId` solver. -/
def env1 : Env := ⟨fun _ => 1, fun _ => 1, fun _ => 1, solverId⟩

/-- An environment whose solver reports a singular covariance (`cov_x = None`),
as `leastsq` does for degenerate fits. -/
def envNone : Env := ⟨fun _ => 1, fun _ => 1, fun _ => 1, fun p0 _ _ _ => ⟨p0, none, 5⟩⟩

/-- A solver behaviour whose fitted amplitude decreases as the window maximum
(the initial amplitude guess) grows; permitted by the `leastsq` interface. -/
def solverFlip : Params5 → List ℚ → List ℚ → List ℚ → SolverOut :=
  fun p0 _ _ _ => ⟨⟨5 - p0.amp, p0.meanX, p0.meanY, p0.sigX, p0.sigY⟩, some [0, 0, 0, 0, 0], 1⟩

/-- An environment with constant-one primitives and the `solverFlip` solver. -/
def env2 : Env := ⟨fun _ => 1, fun _ => 1, fun _ => 1, solverFlip⟩

/-- A solver behaviour returning a negative fitted amplitude. -/
def solverNeg : Params5 → List ℚ → List ℚ → List ℚ → SolverOut :=
  fun p0 _ _ _ => ⟨⟨-1, p0.meanX, p0.meanY, p0.sigX, p0.sigY⟩, some [0, 0, 0, 0, 0], 1⟩

/-- An environment with constant-one primitives and the `solverNeg` solver. -/
def envNeg : Env := ⟨fun _ => 1, fun _ => 1, fun _ => 1, solverNeg⟩

/-- Configuration of the `img1` reference run (peak multiplier `8/3` makes the
peak threshold exactly equal to the brightest pixel). -/
def cfgW1 : Cfg := mkCfg env1 (mad_mean img1) (8/3) 1 2 1

/-- Initial state of the `img1` reference run. -/
def stW1 : State := initState img1 (2 * 2)

/-- The state after the first iteration of the `img1` reference run. -/
def stW1' : State := match sfStep env1 cfgW1 stW1 with | .next s => s | _ => stW1

/-- The fit output of the first iteration of the `img1` reference run. -/
def outW1 : FitOut :=
  match fit_gaussian env1 (maskedOf cfgW1 stW1) 1 with
  | .ok o => o
  | .error _ => ⟨⟨0, 0, 0, 0, 0⟩, [], ⟨0, 0, fun _ _ => 0⟩⟩

/-- The final state of the `img1` reference run. -/
def stfW1 : State :=
  match sfLoop env1 cfgW1 5 stW1 with
  | .ok s => s
  | _ => stW1

/-- Configuration of the `img1` run with the negative-amplitude solver. -/
def cfgNeg : Cfg := mkCfg envNeg (mad_mean img1) 1 (1/2) 2 1

/-- The fit output of the first iteration of the negative-amplitude run. -/
def outNeg : FitOut :=
  match fit_gaussian envNeg (maskedOf cfgNeg stW1) 1 with
  | .ok o => o
  | .error _ => ⟨⟨0, 0, 0, 0, 0⟩, [], ⟨0, 0, fun _ _ => 0⟩⟩

/-- A constant 3x3 window used to exercise `fit_gaussian` directly. -/
def imgW3 : Img := ⟨3, 3, fun _ _ => 1⟩

/-- The fit output of `fit_gaussian` on the 3x3 window. -/
def outW3 : FitOut :=
  match fit_gaussian env1 imgW3 1 with
  | .ok o => o
  | .error _ => ⟨⟨0, 0, 0, 0, 0⟩, [], ⟨0, 0, fun _ _ => 0⟩⟩

/-- An image whose samples are all equal. -/
def constImg (r c : ℕ) (v : ℚ) : Img := ⟨r, c, fun _ _ => v⟩

/-- The conservation invariant tying a loop state to the padded input. -/
def Jinv (data : Img) (pad : ℕ) (st : State) : Prop :=
  ∀ i j, st.model.val i j + st.residual.val i j = (padImg data pad).val i j ∧
    ((∀ w ∈ st.wins, ¬ inWin w i j) → st.model.val i j = 0)

/-! Helper lemmas about list maxima and the pixel list. -/

lemma le_foldl_max (l : List ℚ) (acc : ℚ) : acc ≤ l.foldl max acc := by
  induction l generalizing acc with
  | nil => exact le_refl _
  | cons x xs ih => exact le_trans (le_max_left acc x) (ih (max acc x))

lemma mem_le_foldl_max (l : List ℚ) (acc a : ℚ) (h : a ∈ l) : a ≤ l.foldl max acc := by
  induction l generalizing acc with
  | nil => cases h
  | cons x xs ih =>
    rcases List.mem_cons.mp h with rfl | hmem
    · exact le_trans (le_max_right acc a) (le_foldl_max xs (max acc a))
    · exact ih (max acc x) hmem

lemma foldl_max_le (l : List ℚ) (acc b : ℚ) (h1 : acc ≤ b) (h2 : ∀ a ∈ l, a ≤ b) :
    l.foldl max acc ≤ b := by
  induction l generalizing acc with
  | nil => exact h1
  | cons x xs ih =>
    exact ih (max acc x) (max_le h1 (h2 x (List.mem_cons_self _ _))) fun a ha => h2 a (List.mem_cons_of_mem _ ha)

lemma mem_pixList_iff (im : Img) (a : ℚ) :
    a ∈ pixList im ↔ ∃ i j, i < im.rows ∧ j < im.cols ∧ a = im.val i j := by
  simp only [pixList, List.mem_flatMap, List.mem_map, List.mem_range]
  constructor
  · rintro ⟨i, hi, j, hj, rfl⟩
    exact ⟨i, j, hi, hj, rfl⟩
  · rintro ⟨i, j, hi, hj, rfl⟩
    exact ⟨i, hi, j, hj, rfl⟩

lemma pixList_eq_nil_iff (im : Img) : pixList im = [] ↔ im.rows = 0 ∨ im.cols = 0 := by
  constructor
  · intro h
    by_contra hc
    push_neg at hc
    have h0 : im.val 0 0 ∈ pixList im :=
      (mem_pixList_iff im _).mpr ⟨0, 0, Nat.pos_of_ne_zero hc.1, Nat.pos_of_ne_zero hc.2, rfl⟩
    simp [h] at h0
  · intro h
    rcases h with h | h <;> simp [pixList, h]

lemma le_maxPix (im : Img) (a : ℚ) (h : a ∈ pixList im) : a ≤ maxPix im := by
  unfold maxPix
  rcases hl : pixList im with _ | ⟨x, xs⟩
  · rw [hl] at h; cases h
  · rw [hl] at h
    rcases List.mem_cons.mp h with rfl | hmem
    · exact le_foldl_max xs a
    · exact mem_le_foldl_max xs x a hmem

lemma maxPix_le (im : Img) (b : ℚ) (hne : pixList im ≠ []) (h : ∀ a ∈ pixList im, a ≤ b) :
    maxPix im ≤ b := by
  unfold maxPix
  rcases hl : pixList im with _ | ⟨x, xs⟩
  · exact absurd hl hne
  · exact foldl_max_le xs x b (h x (hl ▸ List.mem_cons_self _ _))
      fun a ha => h a (hl ▸ List.mem_cons_of_mem _ ha)

lemma maxPix_mono (im im' : Img) (hr : im'.rows = im.rows) (hc : im'.cols = im.cols)
    (hpt : ∀ i j, i < im'.rows → j < im'.cols → im'.val i j ≤ im.val i j) :
    maxPix im' ≤ maxPix im := by
  by_cases hne : pixList im' = []
  · have hne2 : pixList im = [] := by
      rcases (pixList_eq_nil_iff im').mp hne with h | h
      · exact (pixList_eq_nil_iff im).mpr (Or.inl (hr ▸ h))
      · exact (pixList_eq_nil_iff im).mpr (Or.inr (hc ▸ h))
    unfold maxPix
    rw [hne, hne2]
  · apply maxPix_le im' _ hne
    intro a ha
    obtain ⟨i, j, hi, hj, rfl⟩ := (mem_pixList_iff im' a).mp ha
    refine le_trans (hpt i j hi hj) (le_maxPix im _ ?_)
    exact (mem_pixList_iff im _).mpr ⟨i, j, hr ▸ hi, hc ▸ hj, rfl⟩

/-! Helper lemmas about the noise estimator. -/

lemma listMean_nonneg (l : List ℚ) (h : ∀ x ∈ l, 0 ≤ x) : 0 ≤ listMean l :=
  div_nonneg (List.sum_nonneg h) (Nat.cast_nonneg _)

lemma mad_mean_nonneg (im : Img) : 0 ≤ mad_mean im := by
  apply listMean_nonneg
  intro x hx
  obtain ⟨y, _, rfl⟩ := List.mem_map.mp hx
  exact abs_nonneg _

lemma flatMap_const_replicate {α : Type} (l : List α) (c : ℕ) (v : ℚ) :
    (l.flatMap fun _ => List.replicate c v) = List.replicate (l.length * c) v := by
  induction l with
  | nil => simp
  | cons x xs ih =>
    simp only [List.flatMap_cons, ih, List.length_cons]
    rw [← List.replicate_add]
    congr 1
    ring

lemma pixList_const (r c : ℕ) (v : ℚ) : pixList (constImg r c v) = List.replicate (r * c) v := by
  unfold pixList constImg
  simp only
  simp only [List.map_const', List.length_range]
  rw [flatMap_const_replicate, List.length_range]

lemma mad_mean_const (r c : ℕ) (v : ℚ) : mad_mean (constImg r c v) = 0 := by
  unfold mad_mean
  rw [pixList_const]
  rcases Nat.eq_zero_or_pos (r * c) with h | h
  · simp [h, listMean]
  · have hm : listMean (List.replicate (r * c) v) = v := by
      unfold listMean
      have hne : ((r * c : ℕ) : ℚ) ≠ 0 := by exact_mod_cast Nat.pos_iff_ne_zero.mp h
      rw [List.sum_replicate, List.length_replicate, nsmul_eq_mul, mul_div_cancel_left₀ _ hne]
    rw [hm]
    have : (List.replicate (r * c) v).map (fun x => |x - v|) = List.replicate (r * c) 0 := by
      rw [List.map_replicate]
      simp
    rw [this]
    unfold listMean
    rw [List.sum_replicate]
    simp

/-! Inversion lemmas for the loop step. -/

lemma fit_gaussian_error_inv (E : Env) (d : Img) (p : ℚ) (e : PyErr)
    (h : fit_gaussian E d p = .error e) : e = .emptyArrayMax ∨ e = .covarianceNone := by
  simp only [fit_gaussian] at h
  split at h
  · injection h with h1
    exact Or.inl h1.symm
  · split at h
    · injection h with h1
      exact Or.inr h1.symm
    · exact absurd h (by simp)

lemma fit_gaussian_ok_inv (E : Env) (d : Img) (p : ℚ) (out : FitOut)
    (h : fit_gaussian E d p = .ok out) :
    out.model = fitModelImg E d.rows d.cols out.params := by
  simp only [fit_gaussian] at h
  split at h
  · exact absurd h (by simp)
  · split at h
    · exact absurd h (by simp)
    · injection h with h1
      rw [← h1]

lemma sfStep_done_inv (E : Env) (C : Cfg) (st s : State)
    (h : sfStep E C st = .done s) : s = st ∧ maxPix st.residual < C.peakSigma := by
  simp only [sfStep] at h
  split at h
  · injection h with h1
    exact ⟨h1.symm, by assumption⟩
  · split at h <;> exact absurd h (by simp)

lemma sfStep_exn_inv (E : Env) (C : Cfg) (st : State) (e : PyErr)
    (h : sfStep E C st = .exn e) :
    ¬ maxPix st.residual < C.peakSigma ∧ fit_gaussian E (maskedOf C st) C.psf = .error e := by
  simp only [sfStep] at h
  split at h
  · exact absurd h (by simp)
  · constructor
    · assumption
    · split at h
      · injection h with h1
        subst h1
        assumption
      · exact absurd h (by simp)

lemma sfStep_next_inv (E : Env) (C : Cfg) (st st' : State)
    (h : sfStep E C st = .next st') :
    ¬ maxPix st.residual < C.peakSigma ∧
      ∃ out, fit_gaussian E (maskedOf C st) C.psf = .ok out ∧ st' = applyFit C st out := by
  simp only [sfStep] at h
  split at h
  · exact absurd h (by simp)
  · constructor
    · assumption
    · split at h
      · exact absurd h (by simp)
      · injection h with h1
        exact ⟨_, by assumption, h1.symm⟩

lemma stepIsDone_eq (E : Env) (C : Cfg) (st : State) :
    stepIsDone (sfStep E C st) = decide (maxPix st.residual < C.peakSigma) := by
  by_cases h : maxPix st.residual < C.peakSigma
  · simp only [sfStep, if_pos h, stepIsDone, decide_eq_true h]
  · simp only [sfStep, if_neg h]
    rcases hfit : fit_gaussian E (maskedOf C st) C.psf with e | out <;>
      simp [stepIsDone, h]

/-! Inversion lemmas for the loop. -/

lemma sfLoop_err_inv (E : Env) (C : Cfg) :
    ∀ (f : ℕ) (st : State) (e : PyErr), sfLoop E C f st = .pyError e →
      e = .emptyArrayMax ∨ e = .covarianceNone := by
  intro f
  induction f with
  | zero => intro st e h; simp [sfLoop] at h
  | succ n ih =>
    intro st e h
    rw [sfLoop] at h
    rcases hs : sfStep E C st with s | s | e' <;> rw [hs] at h
    · exact absurd h (by simp)
    · exact ih s e h
    · injection h with h1
      subst h1
      exact fit_gaussian_error_inv _ _ _ _ (sfStep_exn_inv E C st e' hs).2

lemma sfLoop_wins_grow (E : Env) (C : Cfg) :
    ∀ (f : ℕ) (st stf : State), sfLoop E C f st = .ok stf → st.wins <+: stf.wins := by
  intro f
  induction f with
  | zero => intro st stf h; simp [sfLoop] at h
  | succ n ih =>
    intro st stf h
    rw [sfLoop] at h
    rcases hs : sfStep E C st with s | s | e <;> rw [hs] at h
    · injection h with h1
      obtain ⟨rfl, -⟩ := sfStep_done_inv E C st s hs
      rw [h1]
    · obtain ⟨-, out, -, rfl⟩ := sfStep_next_inv E C st s hs
      refine List.IsPrefix.trans ⟨[stepWin C st], rfl⟩ (ih _ _ h)
    · exact absurd h (by simp)

/-! Conservation invariant machinery: as long as the selected windows are
pairwise disjoint, every pixel of the padded arrays satisfies
`model + residual = padded input`, and the model is zero off the windows. -/

lemma disjWin_not_both (a b : Win) (i j : ℕ) (hd : disjWin a b) (ha : inWin a i j) :
    ¬ inWin b i j := by
  unfold disjWin at hd
  unfold inWin at ha ⊢
  omega

lemma disjWin_symm (a b : Win) (hd : disjWin a b) : disjWin b a := by
  unfold disjWin at hd ⊢
  omega

lemma initState_Jinv (data : Img) (pad : ℕ) : Jinv data pad (initState data pad) := by
  intro i j
  constructor
  · simp [initState]
  · intro _
    simp [initState]

lemma applyFit_Jinv (C : Cfg) (st : State) (out : FitOut) (data : Img) (pad : ℕ)
    (hdisj : ∀ w ∈ st.wins, disjWin w (stepWin C st))
    (hJ : Jinv data pad st) : Jinv data pad (applyFit C st out) := by
  intro i j
  by_cases hin : inWin (stepWin C st) i j
  · have hnot : ∀ w ∈ st.wins, ¬ inWin w i j := fun w hw =>
      disjWin_not_both (stepWin C st) w i j (disjWin_symm w _ (hdisj w hw)) hin
    constructor
    · have hm0 : st.model.val i j = 0 := (hJ i j).2 hnot
      have hsum := (hJ i j).1
      rw [hm0, zero_add] at hsum
      simp only [applyFit, writeAt, subAt, if_pos hin]
      linarith
    · intro hall
      exact absurd hin (hall (stepWin C st) (by simp [applyFit]))
  · constructor
    · simp only [applyFit, writeAt, subAt, if_neg hin]
      exact (hJ i j).1
    · intro hall
      simp only [applyFit, writeAt, if_neg hin]
      exact (hJ i j).2 fun w hw => hall w (by simp [applyFit, hw])

lemma sfLoop_Jinv (E : Env) (C : Cfg) (data : Img) (pad : ℕ) :
    ∀ (f : ℕ) (st stf : State), sfLoop E C f st = .ok stf → Jinv data pad st →
      stf.wins.Pairwise disjWin → Jinv data pad stf := by
  intro f
  induction f with
  | zero => intro st stf h; simp [sfLoop] at h
  | succ n ih =>
    intro st stf h hJ hpw
    rw [sfLoop] at h
    rcases hs : sfStep E C st with s | s | e <;> rw [hs] at h
    · injection h with h1
      obtain ⟨rfl, -⟩ := sfStep_done_inv E C st s hs
      exact h1 ▸ hJ
    · obtain ⟨-, out, -, rfl⟩ := sfStep_next_inv E C st s hs
      have hpre : (applyFit C st out).wins <+: stf.wins := sfLoop_wins_grow E C n _ _ h
      have hpw2 : (st.wins ++ [stepWin C st]).Pairwise disjWin := by
        have hsub : (st.wins ++ [stepWin C st]).Sublist stf.wins := by
          have : (applyFit C st out).wins = st.wins ++ [stepWin C st] := by
            simp [applyFit]
          exact this ▸ hpre.sublist
        exact hpw.sublist hsub
      have hdisj : ∀ w ∈ st.wins, disjWin w (stepWin C st) := by
        intro w hw
        exact (List.pairwise_append.mp hpw2).2.2 w hw _ (List.mem_singleton_self _)
      exact ih _ _ h (applyFit_Jinv C st out data pad hdisj hJ) hpw
    · exact absurd h (by simp)

/-! Helpers for peak monotonicity under subtraction of a nonnegative model. -/

lemma fitModelImg_nonneg (E : Env) (npx npy : ℕ) (p : Params5)
    (hexp : ∀ x, 0 ≤ E.exp x) (hamp : 0 ≤ p.amp) :
    ∀ i j, 0 ≤ (fitModelImg E npx npy p).val i j := by
  intro i j
  unfold fitModelImg gauss2D
  exact mul_nonneg hamp (hexp _)

lemma subAt_val_le (im : Img) (w : Win) (m : Img)
    (hm : ∀ i j, 0 ≤ m.val i j) :
    ∀ i j, (subAt im w m).val i j ≤ im.val i j := by
  intro i j
  unfold subAt
  dsimp only
  split
  · linarith [hm (i - w.s1) (j - w.s2)]
  · exact le_refl _

lemma maxPix_subAt_le (im : Img) (w : Win) (m : Img)
    (hm : ∀ i j, 0 ≤ m.val i j) : maxPix (subAt im w m) ≤ maxPix im :=
  maxPix_mono im (subAt im w m) rfl rfl fun i j _ _ => subAt_val_le im w m hm i j

set_option maxRecDepth 10000

/-! Claim theorems. -/

/-- Claim C1, counterexample: in the `img1` run the peak threshold
`sigma_noise*peak` equals the brightest pixel exactly, yet the run records a
detection (nonempty catalog), so a peak exactly equal to `peakThreshold` is
NOT excluded: the strict `<` break test fails on equality and the iteration
proceeds. -/
theorem C1_equal_peak_detected_counterexample :
    (mkCfg env1 (mad_mean img1) (8/3) 1 2 1).peakSigma = maxPix (padImg img1 (2 * 2)) ∧
    catalogOf (source_finder env1 5 img1 (8/3) 1 2 1) = [(4, 0, 0, 2, 2)] ∧
    catalogOf (source_finder env1 5 img1 (8/3) 1 2 1) ≠ [] := by
  decide!

/-- Claim C1 (amended): the loop breaks exactly when the current maximum is
strictly below the peak threshold; hence a peak strictly below the threshold
is excluded, while a peak exactly equal to the threshold (or above it) is not
excluded - the iteration proceeds to the fit. -/
theorem C1_break_iff_strictly_below (E : Env) (C : Cfg) (st : State) :
    stepIsDone (sfStep E C st) = true ↔ maxPix st.residual < C.peakSigma := by
  rw [stepIsDone_eq]
  exact decide_eq_true_iff

/-- Claim C2: the noise estimate is nonnegative, it is the mean absolute
deviation about the arithmetic mean of all samples of the original
(unpadded, unmutated) input image, and every normal return of the extractor
reports exactly this value. -/
theorem C2_noise_estimate (E : Env) (fuel : ℕ) (data : Img) (peak boundary : ℚ)
    (width : ℕ) (psf_pix : ℚ) :
    0 ≤ mad_mean data ∧
    mad_mean data = listMean ((pixList data).map fun x => |x - listMean (pixList data)|) ∧
    (outcomeTag (source_finder E fuel data peak boundary width psf_pix) = 0 →
      sigmaOf (source_finder E fuel data peak boundary width psf_pix) = mad_mean data) := by
  refine ⟨mad_mean_nonneg data, rfl, fun htag => ?_⟩
  rcases hl : sfLoop E (mkCfg E (mad_mean data) peak boundary width psf_pix) fuel
      (initState data (width * 2)) with st | e | _ <;>
    simp [source_finder, hl, outcomeTag, sigmaOf] at htag ⊢

/-- Witness for C2: concrete run on `img1`. -/
theorem C2_noise_estimate_witness :
    sigmaOf (source_finder env1 5 img1 (8/3) 1 2 1) = mad_mean img1 :=
  (C2_noise_estimate env1 5 img1 (8/3) 1 2 1).2.2 (by decide!)

/-- Claim C3, counterexample: with a solver that reports a singular
covariance (`cov_x = None`, as `leastsq` does for degenerate fits) on an
image whose peak passes the threshold, the extractor does NOT terminate
gracefully returning the catalog: the exception raised at
`np.diagonal(pcov)` propagates to the caller. -/
theorem C3_fit_failure_counterexample :
    (¬ maxPix (padImg img1 (2 * 2)) <
        (mkCfg envNone (mad_mean img1) 1 (1/2) 2 1).peakSigma) ∧
    errOf (source_finder envNone 5 img1 1 (1/2) 2 1) = some PyErr.covarianceNone ∧
    outcomeTag (source_finder envNone 5 img1 1 (1/2) 2 1) = 1 := by
  decide!

/-- Claim C3 (amended): when the fit call of an iteration raises (the only
failure the code can surface, e.g. a singular covariance raising at
`np.diagonal(pcov)`), the exception propagates uncaught out of the loop: the
run ends in `pyError`, the detection is not recorded and the accumulated
catalog is not returned.  A solve that merely fails to converge but still
returns a covariance is undetected, since the success flag is ignored. -/
theorem C3_exception_propagates (E : Env) (C : Cfg) (st : State) (e : PyErr) (fuel : ℕ)
    (h : stepErrOf (sfStep E C st) = some e) :
    sfLoop E C (fuel + 1) st = .pyError e := by
  rcases hs : sfStep E C st with s | s | e' <;> rw [hs] at h <;>
    simp [stepErrOf] at h
  rw [sfLoop, hs, h]

/-- Witness for C3: the `img1` run with the singular-covariance solver. -/
theorem C3_exception_propagates_witness :
    sfLoop envNone (mkCfg envNone (mad_mean img1) 1 (1/2) 2 1) 3
      (initState img1 (2 * 2)) = .pyError PyErr.covarianceNone :=
  C3_exception_propagates envNone (mkCfg envNone (mad_mean img1) 1 (1/2) 2 1)
    (initState img1 (2 * 2)) PyErr.covarianceNone 2 (by decide!)

/-- Claim C4, counterexample: a call with `boundaryMultiplier = 2 >=
peakMultiplier = 1` does not fail with `InvalidConfiguration` before
allocation and fitting: it allocates, runs the loop, fits, and returns a
normal catalog with one detection. -/
theorem C4_no_validation_counterexample :
    (1 : ℚ) ≤ 2 ∧
    outcomeTag (source_finder env1 5 img1 1 2 2 1) = 0 ∧
    catalogOf (source_finder env1 5 img1 1 2 2 1) = [(4, 0, 0, 2, 2)] := by
  decide!

/-- Claim C4 (amended): the extractor performs no configuration validation at
all: no call, whatever the multipliers or window width, ever fails with
`InvalidConfiguration`; every call proceeds into allocation and the loop. -/
theorem C4_never_invalid_configuration (E : Env) (fuel : ℕ) (data : Img)
    (peak boundary : ℚ) (width : ℕ) (psf_pix : ℚ) :
    source_finder E fuel data peak boundary width psf_pix ≠
      .pyError PyErr.invalidConfiguration := by
  intro h
  rcases hl : sfLoop E (mkCfg E (mad_mean data) peak boundary width psf_pix) fuel
      (initState data (width * 2)) with st | e | _ <;>
    simp [source_finder, hl] at h
  rcases sfLoop_err_inv E _ fuel _ e hl with h2 | h2 <;> rw [h2] at h <;> cases h

/-- Claim C5, counterexample: on the all-zero image the noise estimate is `0`,
but the run does NOT terminate at once with an empty catalog: the strict `<`
break test fails (`0 < 0` is false), the first iteration proceeds, the peak
is found in the padding, the window slice is empty, and the fit raises on the
empty array's maximum. -/
theorem C5_zero_image_counterexample :
    mad_mean zeroImg = 0 ∧
    stepIsDone (sfStep env1 (mkCfg env1 (mad_mean zeroImg) 2 1 2 1)
      (initState zeroImg (2 * 2))) = false ∧
    errOf (source_finder env1 5 zeroImg 2 1 2 1) = some PyErr.emptyArrayMax := by
  decide!

/-- Claim C5 (amended): every constant image yields `sigma = 0`, so the peak
threshold is `0`; but the padded residual's maximum is at least `0` (the
padding itself), so the strict `<` break test fails and the extraction loop
enters its body instead of terminating at once with an empty catalog. -/
theorem C5_constant_image_enters_loop (E : Env) (rows cols width : ℕ)
    (v peak boundary psf_pix : ℚ) (hw : 0 < width) :
    mad_mean (constImg rows cols v) = 0 ∧
    stepIsDone (sfStep E (mkCfg E (mad_mean (constImg rows cols v)) peak boundary width psf_pix)
      (initState (constImg rows cols v) (width * 2))) = false := by
  refine ⟨mad_mean_const rows cols v, ?_⟩
  rw [stepIsDone_eq]
  have hps : (mkCfg E (mad_mean (constImg rows cols v)) peak boundary width psf_pix).peakSigma = 0 := by
    simp [mkCfg, mad_mean_const]
  rw [hps]
  apply decide_eq_false
  apply not_lt.mpr
  have hmem : (0 : ℚ) ∈ pixList (initState (constImg rows cols v) (width * 2)).residual := by
    apply (mem_pixList_iff _ _).mpr
    refine ⟨0, 0, ?_, ?_, ?_⟩
    · simp [initState, padImg, constImg]; omega
    · simp [initState, padImg, constImg]; omega
    · simp only [initState, padImg]
      rw [if_neg (by omega)]
  exact le_maxPix _ 0 hmem

/-- Witness for C5: the concrete all-zero 2x2 image with window width 2. -/
theorem C5_constant_image_enters_loop_witness :
    mad_mean (constImg 2 2 0) = 0 ∧
    stepIsDone (sfStep env1 (mkCfg env1 (mad_mean (constImg 2 2 0)) 2 1 2 1)
      (initState (constImg 2 2 0) (2 * 2))) = false :=
  C5_constant_image_enters_loop env1 2 2 2 0 2 1 1 (by decide)

/-- Claim C6, counterexample: a terminating run (under a solver behaviour the
`leastsq` interface permits, with a valid configuration `m = 1 < n = 8/5`)
whose catalog amplitude sequence is `[1, 2, 2]`: the first adjacent pair
increases, so the sequence is not monotonically non-increasing (stated as the
failure of pairwise non-increase, which successive non-increase would imply):
the recorded amplitude is the raw fitted value, which the code does not
constrain. -/
theorem C6_amplitudes_increase_counterexample :
    outcomeTag (source_finder env2 10 img2 (8/5) 1 2 1) = 0 ∧
    catalogAmps (source_finder env2 10 img2 (8/5) 1 2 1) = [1, 2, 2] ∧
    ¬ List.Pairwise (fun a b : ℚ => b ≤ a) (catalogAmps (source_finder env2 10 img2 (8/5) 1 2 1)) := by
  decide!

/-- Claim C6 (amended): each completed iteration appends exactly one record
whose amplitude field is the raw fitted amplitude; the code does not
constrain that sequence.  What does hold is peak monotonicity: whenever the
appended record's amplitude is nonnegative (and the exponential primitive is
nonnegative, as the real exponential is), the subtracted model image is
pointwise nonnegative, so the next iteration's residual maximum cannot
exceed the current one. -/
theorem C6_fitted_amp_recorded_peak_monotone (E : Env) (C : Cfg) (st st' : State)
    (h : sfStep E C st = .next st')
    (hexp : ∀ x, 0 ≤ E.exp x) :
    ∃ r, st'.catalog = st.catalog ++ [r] ∧
      (0 ≤ r.1 → maxPix st'.residual ≤ maxPix st.residual) := by
  obtain ⟨-, out, hfit, rfl⟩ := sfStep_next_inv E C st st' h
  refine ⟨_, rfl, fun hamp => ?_⟩
  have hmodel := fit_gaussian_ok_inv E _ _ out hfit
  have hnn : ∀ i j, 0 ≤ out.model.val i j := by
    rw [hmodel]
    exact fitModelImg_nonneg E _ _ out.params hexp hamp
  exact maxPix_subAt_le st.residual (stepWin C st) out.model hnn

/-- Witness for C6: the first iteration of the `img1` reference run. -/
theorem C6_fitted_amp_recorded_peak_monotone_witness :
    ∃ r, stW1'.catalog = stW1.catalog ++ [r] ∧
      (0 ≤ r.1 → maxPix stW1'.residual ≤ maxPix stW1.residual) :=
  C6_fitted_amp_recorded_peak_monotone env1 cfgW1 stW1 stW1'
    (by with_unfolding_all rfl) (fun x => by norm_num [env1])

/-- Claim C7: a successfully fitted detection at peak coordinates `(xp, yp)`
appends the record whose position fields are
`xpix + (width/2 - fittedMean) - pad` with `pad = 2*width` (and `width/2` the
integer half-width), and whose size fields are `2*sqrt(2*log 2) * sigma`
(with `sqrt` and `log` the numpy primitives). -/
theorem C7_record_formulas (E : Env) (sigma_noise peak boundary : ℚ) (width : ℕ)
    (psf_pix : ℚ) (st : State) (out : FitOut) (xp yp : ℕ)
    (hmax : ¬ maxPix st.residual < (mkCfg E sigma_noise peak boundary width psf_pix).peakSigma)
    (hfind : findMax st.residual = (xp, yp))
    (hfit : fit_gaussian E (maskedOf (mkCfg E sigma_noise peak boundary width psf_pix) st)
      psf_pix = .ok out) :
    sfStep E (mkCfg E sigma_noise peak boundary width psf_pix) st =
      .next (applyFit (mkCfg E sigma_noise peak boundary width psf_pix) st out) ∧
    (applyFit (mkCfg E sigma_noise peak boundary width psf_pix) st out).catalog =
      st.catalog ++ [(out.params.amp,
        (xp : ℚ) + (((width / 2 : ℕ) : ℚ) - out.params.meanX) - ((width * 2 : ℕ) : ℚ),
        (yp : ℚ) + (((width / 2 : ℕ) : ℚ) - out.params.meanY) - ((width * 2 : ℕ) : ℚ),
        (2 * E.sqrt (2 * E.log 2)) * out.params.sigX,
        (2 * E.sqrt (2 * E.log 2)) * out.params.sigY)] := by
  constructor
  · simp only [sfStep, if_neg hmax]
    have hpsf : (mkCfg E sigma_noise peak boundary width psf_pix).psf = psf_pix := rfl
    rw [hpsf, hfit]
  · simp [applyFit, mkCfg, hfind]

/-- Witness for C7: the first iteration of the `img1` reference run, whose
peak is at padded coordinates `(4, 4)`. -/
theorem C7_record_formulas_witness :
    sfStep env1 (mkCfg env1 (mad_mean img1) (8/3) 1 2 1) stW1 =
      .next (applyFit (mkCfg env1 (mad_mean img1) (8/3) 1 2 1) stW1 outW1) ∧
    (applyFit (mkCfg env1 (mad_mean img1) (8/3) 1 2 1) stW1 outW1).catalog =
      stW1.catalog ++ [(outW1.params.amp,
        (4 : ℚ) + (((2 / 2 : ℕ) : ℚ) - outW1.params.meanX) - ((2 * 2 : ℕ) : ℚ),
        (4 : ℚ) + (((2 / 2 : ℕ) : ℚ) - outW1.params.meanY) - ((2 * 2 : ℕ) : ℚ),
        (2 * env1.sqrt (2 * env1.log 2)) * outW1.params.sigX,
        (2 * env1.sqrt (2 * env1.log 2)) * outW1.params.sigY)] :=
  C7_record_formulas env1 (mad_mean img1) (8/3) 1 2 1 stW1 outW1 4 4
    (by decide!) (by decide!) (by with_unfolding_all rfl)

/-- Claim C8, counterexample: the fitting mesh's axis grid for a window of
width 3 is `np.linspace(0, 3, 3) = [0, 3/2, 3]`, not the simple linear grid
`0..width-1 = [0, 1, 2]` the claim asserts; `xxFlat` is the exact flattened
mesh handed to the solver. -/
theorem C8_mesh_counterexample :
    xxFlat 3 3 ≠ [0, 1, 2, 0, 1, 2, 0, 1, 2] ∧
    xxFlat 3 3 = [0, 3/2, 3, 0, 3/2, 3, 0, 3/2, 3] ∧
    linspace0 3 1 ≠ 1 := by
  decide!

/-- Claim C8 (amended): the mesh has one coordinate pair per pixel and covers
every pixel of the window (the model image has the window's shape and entry
`(i, j)` is `gauss2D` at `(x[j], y[i])`), but each axis grid is
`np.linspace(0, width, width)`: `width` points spanning `0` to `width`
inclusive with spacing `width/(width-1)`, not `0..width-1`. -/
theorem C8_mesh_description (E : Env) (data : Img) (psf_pix : ℚ) (out : FitOut)
    (hfit : fit_gaussian E data psf_pix = .ok out) :
    out.model.rows = data.cols ∧ out.model.cols = data.rows ∧
    (∀ i j, out.model.val i j =
      gauss2D E (linspace0 data.rows j) (linspace0 data.cols i)
        out.params.amp out.params.meanX out.params.meanY out.params.sigX out.params.sigY) ∧
    (∀ n : ℕ, 2 ≤ n →
      linspace0 n 0 = 0 ∧ linspace0 n (n - 1) = (n : ℚ) ∧
      ∀ k, linspace0 n k = (n : ℚ) * (k : ℚ) / ((n : ℚ) - 1)) := by
  have hm := fit_gaussian_ok_inv E data psf_pix out hfit
  refine ⟨by rw [hm]; rfl, by rw [hm]; rfl, fun i j => by rw [hm]; rfl, fun n hn => ?_⟩
  have hne : (n : ℚ) - 1 ≠ 0 := by
    have h2 : (2 : ℚ) ≤ (n : ℚ) := by exact_mod_cast hn
    linarith
  refine ⟨by simp [linspace0], ?_, fun k => rfl⟩
  have h1 : ((n - 1 : ℕ) : ℚ) = (n : ℚ) - 1 := by
    have h2 : 1 ≤ n := le_trans one_le_two hn
    rw [Nat.cast_sub h2, Nat.cast_one]
  rw [linspace0, h1, mul_div_assoc, div_self hne, mul_one]

/-- Witness for C8: the fit on the constant 3x3 window. -/
theorem C8_mesh_description_witness :
    outW3.model.rows = imgW3.cols ∧ outW3.model.cols = imgW3.rows ∧
    (∀ i j, outW3.model.val i j =
      gauss2D env1 (linspace0 imgW3.rows j) (linspace0 imgW3.cols i)
        outW3.params.amp outW3.params.meanX outW3.params.meanY outW3.params.sigX outW3.params.sigY) ∧
    (∀ n : ℕ, 2 ≤ n →
      linspace0 n 0 = 0 ∧ linspace0 n (n - 1) = (n : ℚ) ∧
      ∀ k, linspace0 n k = (n : ℚ) * (k : ℚ) / ((n : ℚ) - 1)) :=
  C8_mesh_description env1 imgW3 1 outW3 (by with_unfolding_all rfl)

/-- Claim C9: for a terminating run whose selected windows are pairwise
disjoint, the cropped model and residual sum to the input at every pixel of
the original shape (and the extractor returns exactly these cropped images
and the accumulated catalog). -/
theorem C9_model_plus_residual (E : Env) (fuel : ℕ) (data : Img) (peak boundary : ℚ)
    (width : ℕ) (psf_pix : ℚ) (stf : State) (_hw : 0 < width)
    (hrun : sfLoop E (mkCfg E (mad_mean data) peak boundary width psf_pix) fuel
      (initState data (width * 2)) = .ok stf)
    (hdisj : stf.wins.Pairwise disjWin) :
    source_finder E fuel data peak boundary width psf_pix =
      .ok (stf.catalog, cropImg stf.model (width * 2), cropImg stf.residual (width * 2),
        mad_mean data) ∧
    ∀ i, i < data.rows → ∀ j, j < data.cols →
      (cropImg stf.model (width * 2)).val i j + (cropImg stf.residual (width * 2)).val i j =
        data.val i j := by
  have hJ := sfLoop_Jinv E (mkCfg E (mad_mean data) peak boundary width psf_pix) data
    (width * 2) fuel _ stf hrun (initState_Jinv data (width * 2)) hdisj
  constructor
  · unfold source_finder
    rw [hrun]
  · intro i hi j hj
    have h := (hJ (width * 2 + i) (width * 2 + j)).1
    have hpad : (padImg data (width * 2)).val (width * 2 + i) (width * 2 + j) = data.val i j := by
      unfold padImg
      dsimp only
      rw [if_pos (by omega)]
      congr 1 <;> omega
    exact h.trans hpad

/-- Witness for C9: the `img1` reference run, whose single selected window is
trivially pairwise disjoint. -/
theorem C9_model_plus_residual_witness :
    source_finder env1 5 img1 (8/3) 1 2 1 =
      .ok (stfW1.catalog, cropImg stfW1.model (2 * 2), cropImg stfW1.residual (2 * 2),
        mad_mean img1) ∧
    ∀ i, i < img1.rows → ∀ j, j < img1.cols →
      (cropImg stfW1.model (2 * 2)).val i j + (cropImg stfW1.residual (2 * 2)).val i j =
        img1.val i j :=
  C9_model_plus_residual env1 5 img1 (8/3) 1 2 1 stfW1 (by decide)
    (by with_unfolding_all rfl) (by decide!)

/-- Claim C10: in every iteration whose peak passes the threshold test and
whose fit call returns, exactly one source record (the fitted amplitude with
the derived position and size fields) is appended to the catalog, the model
image is subtracted from the residual window and written into the model
window, with no condition on the sign of the fitted amplitude (the fit output
`out` here is arbitrary, so zero or negative amplitudes are handled exactly
like positive ones). -/
theorem C10_append_and_subtract (E : Env) (C : Cfg) (st : State) (out : FitOut)
    (hmax : ¬ maxPix st.residual < C.peakSigma)
    (hfit : fit_gaussian E (maskedOf C st) C.psf = .ok out) :
    sfStep E C st = .next (applyFit C st out) ∧
    (applyFit C st out).catalog.length = st.catalog.length + 1 ∧
    (applyFit C st out).residual = subAt st.residual (stepWin C st) out.model ∧
    (applyFit C st out).model = writeAt st.model (stepWin C st) out.model ∧
    (applyFit C st out).catalog.getLast? = some (out.params.amp,
      ((findMax st.residual).1 : ℚ) + (((C.width / 2 : ℕ) : ℚ) - out.params.meanX) - (C.pad : ℚ),
      ((findMax st.residual).2 : ℚ) + (((C.width / 2 : ℕ) : ℚ) - out.params.meanY) - (C.pad : ℚ),
      C.fwhm * out.params.sigX, C.fwhm * out.params.sigY) := by
  refine ⟨?_, ?_, rfl, rfl, ?_⟩
  · simp only [sfStep, if_neg hmax, hfit]
  · simp [applyFit]
  · simp [applyFit]

/-- Witness for C10: an iteration whose solver returns a negative fitted
amplitude (`-1`); the record is appended and subtracted all the same. -/
theorem C10_append_and_subtract_witness :
    sfStep envNeg cfgNeg stW1 = .next (applyFit cfgNeg stW1 outNeg) ∧
    (applyFit cfgNeg stW1 outNeg).catalog.length = stW1.catalog.length + 1 ∧
    (applyFit cfgNeg stW1 outNeg).residual = subAt stW1.residual (stepWin cfgNeg stW1) outNeg.model ∧
    (applyFit cfgNeg stW1 outNeg).model = writeAt stW1.model (stepWin cfgNeg stW1) outNeg.model ∧
    (applyFit cfgNeg stW1 outNeg).catalog.getLast? = some (outNeg.params.amp,
      ((findMax stW1.residual).1 : ℚ) + (((cfgNeg.width / 2 : ℕ) : ℚ) - outNeg.params.meanX) - (cfgNeg.pad : ℚ),
      ((findMax stW1.residual).2 : ℚ) + (((cfgNeg.width / 2 : ℕ) : ℚ) - outNeg.params.meanY) - (cfgNeg.pad : ℚ),
      cfgNeg.fwhm * outNeg.params.sigX, cfgNeg.fwhm * outNeg.params.sigY) :=
  C10_append_and_subtract envNeg cfgNeg stW1 outNeg (by decide!) (by with_unfolding_all rfl)
